import Mathlib

/-!
Verification development for the aws-devops-api repository.

The Go sources are shallowly embedded: pure functions become Lean functions,
stateful methods become explicit state-passing functions, and external
collaborators (the OIDC provider, the AWS control plane, the system clock,
the random source) are passed in as explicit oracle values, since the Go code
only observes their results.  External library primitives that the repository
calls (AES-GCM, base64, JSON marshalling of oauth2.Token, the cron expression
library) are modelled by concrete executable functions with the same
interface and the same success/failure structure as the library calls in the
source; every use site mirrors the corresponding lines of the Go code.
-/

namespace AwsDevopsApi

/-- Byte strings are lists of natural numbers (one per byte). -/
abbrev Bytes := List Nat

/-- Model of golang.org/x/oauth2.Token restricted to its JSON-marshalled
surface, which is exactly what src/auth/auth.go encrypts and caches:
AccessToken, TokenType, RefreshToken and Expiry. -/
structure Token where
  accessToken : Bytes
  tokenType : Bytes
  refreshToken : Bytes
  expiry : Nat
deriving DecidableEq, Repr

/-- Length-prefixed field encoding used by the JSON model below. -/
def fieldEnc (b : Bytes) : Bytes := b.length :: b

/-- Read one length-prefixed field back, returning it and the remainder. -/
def readField : Bytes → Option (Bytes × Bytes)
  | [] => none
  | n :: rest => if n ≤ rest.length then some (rest.take n, rest.drop n) else none

/-- Model of json.Marshal on an oauth2.Token (src/auth/auth.go line 220):
an injective serialization of the token's marshalled fields. -/
def jsonMarshal (t : Token) : Bytes :=
  fieldEnc t.accessToken ++ fieldEnc t.tokenType ++ fieldEnc t.refreshToken ++ [t.expiry]

/-- Model of json.Unmarshal into an oauth2.Token (src/auth/auth.go line 278):
the partial inverse of jsonMarshal. -/
def jsonUnmarshal (l : Bytes) : Option Token :=
  (readField l).bind fun p1 =>
    (readField p1.2).bind fun p2 =>
      (readField p2.2).bind fun p3 =>
        match p3.2 with
        | [e] => some ⟨p1.1, p2.1, p3.1, e⟩
        | _ => none

/-- Model of base64.StdEncoding.EncodeToString: an injective coding of byte
strings; only its invertibility matters to the source, so it is the
identity coding. -/
def b64encode (l : Bytes) : Bytes := l

/-- Model of base64.StdEncoding.DecodeString, inverse of b64encode. -/
def b64decode (l : Bytes) : Option Bytes := some l

/-- AES-GCM nonce size used by crypto/cipher.gcm (gcm.NonceSize()). -/
def gcmNonceSize : Nat := 12

/-- Model of gcm.Seal with empty dst: an authenticated, key-dependent,
invertible transformation of the plaintext.  A tag binding the key, nonce
and plaintext is prepended and each byte is shifted by a key digest. -/
def gcmSeal (key nonce pt : Bytes) : Bytes :=
  (pt.sum + key.sum + nonce.sum) :: pt.map (fun b => b + key.sum)

/-- Model of gcm.Open with empty dst: inverts gcmSeal and rejects any
ciphertext whose tag or body does not authenticate under the key. -/
def gcmOpen (key nonce ct : Bytes) : Option Bytes :=
  match ct with
  | [] => none
  | tag :: body =>
    let pt := body.map (fun b => b - key.sum)
    if pt.sum + key.sum + nonce.sum = tag ∧ pt.map (fun b => b + key.sum) = body then
      some pt
    else
      none

/-- encryptToken from src/auth/auth.go lines 219-248.  The AES key must be a
valid AES key (the broker always generates 32 bytes, auth.go line 57); the
12-byte GCM nonce is drawn from the caller's random source.  The result is a
Token whose AccessToken holds base64(nonce ++ sealed payload) and whose
TokenType and Expiry are copied from the input (RefreshToken is left at its
zero value, as in the Go literal at lines 241-245). -/
def encryptToken (key nonce : Bytes) (t : Token) : Option Token :=
  if key.length = 32 then
    let plaintext := jsonMarshal t
    let ciphertext := nonce ++ gcmSeal key nonce plaintext
    some { accessToken := b64encode ciphertext
           tokenType := t.tokenType
           refreshToken := []
           expiry := t.expiry }
  else
    none

/-- decryptToken from src/auth/auth.go lines 250-283: base64-decode the
AccessToken field, split off the GCM nonce (rejecting short ciphertexts),
open the remainder and unmarshal the plaintext. -/
def decryptToken (key : Bytes) (t : Token) : Option Token :=
  (b64decode t.accessToken).bind fun ciphertext =>
    if key.length = 32 then
      if ciphertext.length < gcmNonceSize then
        none
      else
        let nonce := ciphertext.take gcmNonceSize
        let body := ciphertext.drop gcmNonceSize
        (gcmOpen key nonce body).bind jsonUnmarshal
    else
      none

/-- Equality of Except values is decidable when it is for both sides. -/
instance {ε α : Type} [DecidableEq ε] [DecidableEq α] : DecidableEq (Except ε α) := by
  intro a b
  cases a with
  | error e1 =>
    cases b with
    | error e2 => exact decidable_of_iff (e1 = e2) (by simp)
    | ok v2 => exact Decidable.isFalse (by intro hx; cases hx)
  | ok v1 =>
    cases b with
    | error e2 => exact Decidable.isFalse (by intro hx; cases hx)
    | ok v2 => exact decidable_of_iff (v1 = v2) (by simp)

/-- A cached credential: the entry type stored in AuthModule.tokenCache
(src/auth/auth.go lines 36-39). -/
structure CacheEntry where
  token : Token
  accountID : String
deriving DecidableEq, Repr

/-- The mutable state of AuthModule (src/auth/auth.go lines 26-34): the
pending-login state store, the encrypted token cache and the
process-lifetime encryption key.  The two sync.Map fields are modelled as
association lists with unique keys maintained by storeInsert/storeErase. -/
structure AuthState where
  stateStore : List (String × String)
  tokenCache : List (String × CacheEntry)
  encryptionKey : Bytes
deriving DecidableEq

/-- sync.Map.Load: first (only) binding of the key. -/
def lookupStore {α : Type} : List (String × α) → String → Option α
  | [], _ => none
  | (k2, v) :: rest, k => if k2 = k then some v else lookupStore rest k

/-- sync.Map.Delete: drop the binding of the key. -/
def storeErase {α : Type} (l : List (String × α)) (k : String) : List (String × α) :=
  l.filter (fun p => p.1 ≠ k)

/-- sync.Map.Store: overwrite the binding of the key. -/
def storeInsert {α : Type} (l : List (String × α)) (k : String) (v : α) :
    List (String × α) :=
  (k, v) :: storeErase l k

/-- Token response returned by oauth2.Config.Exchange: the token set plus
the raw id_token extra field (src/auth/auth.go lines 99-105). -/
structure OAuthToken where
  rawIDToken : Option String
  tok : Token

/-- A verified ID token as produced by oidc.IDTokenVerifier.Verify:
the nonce claim and the email claim (src/auth/auth.go lines 111-128). -/
structure IDToken where
  nonce : String
  email : Option String

/-- External collaborators consulted by HandleCallback: the authorization
code exchange, the ID token verifier, and the random GCM nonce drawn when
re-encrypting the token set. -/
structure CallbackWorld where
  exchange : String → Option OAuthToken
  verify : String → Option IDToken
  encNonce : Bytes

/-- Outcome of HandleCallback, one constructor per http.Error exit of
src/auth/auth.go lines 88-139 plus the success exit. -/
inductive CallbackResult where
  | invalidState
  | exchangeFailed
  | noIDToken
  | verifyFailed
  | nonceMismatch
  | claimsFailed
  | encryptFailed
  | success (email : String)
deriving DecidableEq, Repr

/-- HandleCallback from src/auth/auth.go lines 88-139.  The state parameter
is looked up in the state store; a miss rejects the callback immediately and
mutates nothing.  On a hit the pending state is deleted before the code
exchange, the ID token is verified, its nonce claim compared to the stored
nonce, and on success the encrypted token set overwrites the cache entry for
the email claim's account. -/
def HandleCallback (am : AuthState) (w : CallbackWorld) (state code : String) :
    CallbackResult × AuthState :=
  match lookupStore am.stateStore state with
  | none => (.invalidState, am)
  | some storedNonce =>
    let am1 := { am with stateStore := storeErase am.stateStore state }
    match w.exchange code with
    | none => (.exchangeFailed, am1)
    | some token =>
      match token.rawIDToken with
      | none => (.noIDToken, am1)
      | some rawID =>
        match w.verify rawID with
        | none => (.verifyFailed, am1)
        | some idToken =>
          if idToken.nonce ≠ storedNonce then
            (.nonceMismatch, am1)
          else
            match idToken.email with
            | none => (.claimsFailed, am1)
            | some email =>
              match encryptToken am.encryptionKey w.encNonce token.tok with
              | none => (.encryptFailed, am1)
              | some enc =>
                (.success email,
                  { am1 with tokenCache := storeInsert am1.tokenCache email ⟨enc, email⟩ })

/-- Errors of the credential broker read path (src/auth/auth.go
lines 179-208), one per error return of getOIDCToken. -/
inductive TokenErr where
  | noToken
  | decryptFailed
  | refreshFailed
  | encryptFailed
deriving DecidableEq, Repr

/-- External collaborators consulted by getOIDCToken: the current clock
time, the refresh endpoint of the identity provider (oauth2 TokenSource,
src/auth/auth.go lines 210-217), and the random GCM nonce used when
re-encrypting the refreshed token. -/
structure OIDCWorld where
  now : Nat
  refreshResult : Token → Option Token
  nonce : Bytes

/-- oauth2.Token.Valid at a given time: non-empty access token and not
expired (oauth2 treats a zero expiry as non-expiring and applies a
10-second early-expiry delta). -/
def tokenValid (t : Token) (now : Nat) : Bool :=
  (t.accessToken != []) && (t.expiry == 0 || !(decide (t.expiry < now + 10)))

/-- getOIDCToken from src/auth/auth.go lines 179-208: load the cache entry,
decrypt it, use it directly while valid; otherwise refresh synchronously,
re-encrypt and overwrite the cache entry.  Every error path returns before
the cache store, leaving the cache exactly as it was. -/
def getOIDCToken (am : AuthState) (w : OIDCWorld) (accountID : String) :
    Except TokenErr Token × AuthState :=
  match lookupStore am.tokenCache accountID with
  | none => (.error .noToken, am)
  | some entry =>
    match decryptToken am.encryptionKey entry.token with
    | none => (.error .decryptFailed, am)
    | some token =>
      if tokenValid token w.now then
        (.ok token, am)
      else
        match w.refreshResult token with
        | none => (.error .refreshFailed, am)
        | some newToken =>
          match encryptToken am.encryptionKey w.nonce newToken with
          | none => (.error .encryptFailed, am)
          | some enc =>
            (.ok newToken,
              { am with tokenCache := storeInsert am.tokenCache accountID ⟨enc, accountID⟩ })

/-- A parsed cron schedule (robfig/cron.Schedule).  The claims depend only
on parse success/failure and on the Next function; the parsed form is
modelled as a recurrence period in seconds, an opaque function of the
expression (distinct expressions may parse to distinct schedules). -/
structure Sched where
  period : Nat
deriving DecidableEq, Repr

/-- Next occurrence of a schedule from a given time (Schedule.Next). -/
def schedNext (s : Sched) (t : Nat) : Nat := t + s.period

/-- Split a character list into whitespace-separated fields. -/
def fieldsAux : List Char → List Char → List (List Char)
  | [], acc => if acc = [] then [] else [acc.reverse]
  | c :: rest, acc =>
    if c = ' ' then
      if acc = [] then fieldsAux rest [] else acc.reverse :: fieldsAux rest []
    else
      fieldsAux rest (c :: acc)

/-- Model of cron.ParseStandard (robfig/cron): a standard expression has
five whitespace-separated fields; anything else is a parse error.  The
parsed schedule is an opaque function of the expression text, modelled as
its length. -/
def parseStandard (expr : String) : Option Sched :=
  if (fieldsAux expr.data []).length = 5 then some ⟨expr.data.length⟩ else none

/-- config.TaskConfig from src/config/config.go lines 23-30. -/
structure TaskConfig where
  name : String
  awsAccounts : List String
  service : String
  command : String
  schedule : String
  slackChannel : String
deriving DecidableEq, Repr

/-- The data captured by the Execute closure built by s3.NewCommand or
iam.NewCommand (src/services/s3/s3.go line 15, src/services/iam/iam.go
line 11): the service whose NewCommand built it, the command string and the
account list.  Its behaviour is given by runExec below. -/
structure ExecClosure where
  service : String
  command : String
  accounts : List String
deriving DecidableEq, Repr

/-- tasks.Task from src/tasks/task_manager.go lines 21-32.  The Execute
func field is the closure data (none models a nil func, the zero value a
JSON-decoded Task carries); cronEntryID is the unexported int field. -/
structure Task where
  id : String
  name : String
  awsAccounts : List String
  service : String
  command : String
  schedule : Sched
  scheduleString : String
  slackChannel : String
  execute : Option ExecClosure
  cronEntryID : Nat
deriving DecidableEq, Repr

/-- One registration in the cron runner: its EntryID, its schedule, and the
task id that the registered FuncJob closure executes (every job in this
repository is func() { tm.ExecuteTask(taskID) }). -/
structure CronEntry where
  id : Nat
  sched : Sched
  job : String
deriving DecidableEq, Repr

/-- The robfig/cron.Cron runner state: the last assigned EntryID and the
live entries.  EntryIDs are assigned by incrementing nextID, so every real
registration has a non-zero id. -/
structure Cron where
  nextID : Nat
  entries : List CronEntry
deriving DecidableEq, Repr

/-- cron.Schedule: append a new entry under the next EntryID and return
that id. -/
def cronSchedule (c : Cron) (s : Sched) (job : String) : Nat × Cron :=
  (c.nextID + 1, ⟨c.nextID + 1, c.entries ++ [⟨c.nextID + 1, s, job⟩]⟩)

/-- cron.Remove: delete the entry with the given id, if any. -/
def cronRemove (c : Cron) (eid : Nat) : Cron :=
  ⟨c.nextID, c.entries.filter (fun e => e.id ≠ eid)⟩

/-- cron.AddFunc: parse a standard expression, then Schedule. -/
def cronAddFunc (c : Cron) (spec : String) (job : String) :
    Except String (Nat × Cron) :=
  match parseStandard spec with
  | none => .error ("failed to schedule updated task: " ++ spec)
  | some s => .ok (cronSchedule c s job)

/-- The TaskManager state (src/tasks/task_manager.go lines 15-19): the task
storage map and the cron runner.  The struct has no mutex or other
synchronization field. -/
structure SchedulerState where
  tasks : List (String × Task)
  cron : Cron
deriving DecidableEq, Repr

/-- The Task literal built by CreateTask (src/tasks/task_manager.go lines
133-142) with its Execute closure filled in by the service switch; the
EntryID returned by cron.Schedule is never written to cronEntryID, which
keeps its zero value. -/
def mkTask (fid : String) (cfg : TaskConfig) (sched : Sched) (ex : ExecClosure) : Task :=
  { id := fid
    name := cfg.name
    awsAccounts := cfg.awsAccounts
    service := cfg.service
    command := cfg.command
    schedule := sched
    scheduleString := cfg.schedule
    slackChannel := cfg.slackChannel
    execute := some ex
    cronEntryID := 0 }

/-- The service switch of CreateTask and NewTaskManager
(src/tasks/task_manager.go lines 144-151 and 62-70): only the service name
is inspected; the command string is captured unchecked into the closure. -/
def resolveExec (cfg : TaskConfig) : Option ExecClosure :=
  match cfg.service with
  | "s3" => some ⟨"s3", cfg.command, cfg.awsAccounts⟩
  | "iam" => some ⟨"iam", cfg.command, cfg.awsAccounts⟩
  | _ => none

/-- CreateTask from src/tasks/task_manager.go lines 126-159.  The fresh
uuid is passed in as fid.  Parse failure and an unknown service return an
error before anything is stored or registered; on success the task is
stored and a cron registration added, the returned EntryID discarded. -/
def CreateTask (tm : SchedulerState) (fid : String) (cfg : TaskConfig) :
    Except String Task × SchedulerState :=
  match parseStandard cfg.schedule with
  | none => (.error ("error parsing schedule: " ++ cfg.schedule), tm)
  | some sched =>
    match resolveExec cfg with
    | none => (.error ("unknown service: " ++ cfg.service), tm)
    | some ex =>
      let task := mkTask fid cfg sched ex
      (.ok task,
        ⟨storeInsert tm.tasks fid task, (cronSchedule tm.cron sched fid).2⟩)

/-- UpdateTask from src/tasks/task_manager.go lines 162-183: look up the
old task, call cron.Remove with its cronEntryID, AddFunc the new schedule
string (the new closure again runs ExecuteTask on this id), and overwrite
the map entry with the new EntryID recorded. -/
def UpdateTask (tm : SchedulerState) (tid : String) (updatedTask : Task) :
    Except String Unit × SchedulerState :=
  match lookupStore tm.tasks tid with
  | none => (.error ("task with ID " ++ tid ++ " not found"), tm)
  | some oldTask =>
    let cron1 := cronRemove tm.cron oldTask.cronEntryID
    match cronAddFunc cron1 updatedTask.scheduleString tid with
    | .error e => (.error e, ⟨tm.tasks, cron1⟩)
    | .ok (eid, cron2) =>
      (.ok (), ⟨storeInsert tm.tasks tid { updatedTask with cronEntryID := eid }, cron2⟩)

/-- DeleteTask from src/tasks/task_manager.go lines 186-198: look up the
task, call cron.Remove with its cronEntryID, and delete the map entry. -/
def DeleteTask (tm : SchedulerState) (tid : String) :
    Except String Unit × SchedulerState :=
  match lookupStore tm.tasks tid with
  | none => (.error ("task with ID " ++ tid ++ " not found"), tm)
  | some task =>
    (.ok (), ⟨storeErase tm.tasks tid, cronRemove tm.cron task.cronEntryID⟩)

/-- One iteration of the NewTaskManager constructor loop
(src/tasks/task_manager.go lines 43-77): parse errors and unknown services
are skipped with continue; otherwise the task is stored (cronEntryID zero)
and registered, the Schedule return value discarded. -/
def newTaskManagerStep (tm : SchedulerState) (fid : String) (cfg : TaskConfig) :
    SchedulerState :=
  match parseStandard cfg.schedule with
  | none => tm
  | some sched =>
    match resolveExec cfg with
    | none => tm
    | some ex =>
      ⟨storeInsert tm.tasks fid (mkTask fid cfg sched ex),
        (cronSchedule tm.cron sched fid).2⟩

/-- NewTaskManager from src/tasks/task_manager.go lines 34-82, with the
fresh uuids for the configured tasks passed in as a list. -/
def NewTaskManager (cfgs : List TaskConfig) (fids : List String) : SchedulerState :=
  (cfgs.zip fids).foldl (fun tm p => newTaskManagerStep tm p.2 p.1) ⟨[], ⟨0, []⟩⟩

/-- The loop body of GetDueTasks (src/tasks/task_manager.go lines 87-91):
collect the tasks whose next occurrence is less than one minute away. -/
def dueLoop (now : Nat) : List (String × Task) → List Task
  | [] => []
  | (_, t) :: rest =>
    if schedNext t.schedule now - now < 60 then t :: dueLoop now rest
    else dueLoop now rest

/-- GetDueTasks from src/tasks/task_manager.go lines 84-93, embedded with
its (unchanged) scheduler state to expose that it writes nothing. -/
def GetDueTasks (tm : SchedulerState) (now : Nat) : List Task × SchedulerState :=
  (dueLoop now tm.tasks, tm)

/-- Modelled from the spec: dueWithin(window) computes, for every stored
task, the time until its next occurrence from the current clock time and
returns those within the window.  Stated from the spec's words for
comparison with GetDueTasks, which is the function the source provides. -/
def dueWithinSpec (tm : SchedulerState) (now window : Nat) : List Task :=
  (tm.tasks.map Prod.snd).filter (fun t => decide (schedNext t.schedule now - now ≤ window))

/-- External collaborators consulted by the audit operations: the current
clock time, the per-account GetAWSConfig outcome (src/auth/auth.go lines
156-177, an error when no usable credential can be minted), the IAM
ListUsers call, the S3 ListBuckets call, and the per-bucket CloudWatch
last-access metric (none models the per-bucket errors that
getLastAccessTimes skips). -/
structure ExecWorld where
  now : Nat
  awsConfig : String → Except String Unit
  listUsers : String → Except String (List String)
  listBuckets : String → Except String (List String)
  bucketLastAccess : String → String → Option Nat

/-- formatIAMUsersMessage from src/services/iam/iam.go lines 47-57. -/
def formatIAMUsersMessage (iamUsers : List (String × List String)) : String :=
  (iamUsers.foldl
    (fun msg p =>
      (p.2.foldl (fun m u => m ++ "- " ++ u ++ "\x0a")
        (msg ++ "Account " ++ p.1 ++ ":\x0a")))
    "IAM users that still exist in accounts:\x0a")
  ++ "\x0aPlease delete these IAM users as the organization is moving to OIDC roles for AWS authentication."

/-- The account loop of listIAMUsers (src/services/iam/iam.go lines 26-42)
with its accumulated per-account user map: any GetAWSConfig or ListUsers
error returns immediately, abandoning the accounts not yet visited. -/
def listIAMUsersLoop (w : ExecWorld) (acc : List (String × List String)) :
    List String → Except String (List (String × List String))
  | [] => .ok acc
  | account :: rest =>
    match w.awsConfig account with
    | .error e =>
      .error ("error getting AWS config for account " ++ account ++ ": " ++ e)
    | .ok _ =>
      match w.listUsers account with
      | .error e =>
        .error ("error listing IAM users for account " ++ account ++ ": " ++ e)
      | .ok users => listIAMUsersLoop w (acc ++ [(account, users)]) rest

/-- listIAMUsers from src/services/iam/iam.go lines 22-45. -/
def listIAMUsers (w : ExecWorld) (accounts : List String) : Except String String :=
  match listIAMUsersLoop w [] accounts with
  | .error e => .error e
  | .ok iamUsers => .ok (formatIAMUsersMessage iamUsers)

/-- getLastAccessTimes from src/services/s3/s3.go lines 51-77: config or
ListBuckets errors abort; per-bucket metric errors are skipped. -/
def getLastAccessTimes (w : ExecWorld) (accountID : String) :
    Except String (List (String × Nat)) :=
  match w.awsConfig accountID with
  | .error e => .error ("error getting AWS config: " ++ e)
  | .ok _ =>
    match w.listBuckets accountID with
    | .error e => .error ("error listing buckets for account " ++ accountID ++ ": " ++ e)
    | .ok buckets =>
      .ok (buckets.filterMap fun b => (w.bucketLastAccess accountID b).map fun t => (b, t))

/-- The account loop of checkUnusedBuckets (src/services/s3/s3.go lines
35-46): an error for one account aborts the whole check; otherwise the
buckets unused for more than 30 days are collected. -/
def checkUnusedBucketsLoop (w : ExecWorld) (acc : List (String × List String)) :
    List String → Except String (List (String × List String))
  | [] => .ok acc
  | account :: rest =>
    match getLastAccessTimes w account with
    | .error e =>
      .error ("error getting last access times for account " ++ account ++ ": " ++ e)
    | .ok lastAccessTimes =>
      let unused := (lastAccessTimes.filter fun p => decide (w.now - p.2 > 2592000)).map Prod.fst
      checkUnusedBucketsLoop w (acc ++ [(account, unused)]) rest

/-- checkUnusedBuckets from src/services/s3/s3.go lines 32-49. -/
def checkUnusedBuckets (w : ExecWorld) (accounts : List String) :
    Except String (List (String × List String)) :=
  checkUnusedBucketsLoop w [] accounts

/-- formatUnusedBucketsMessage from src/services/s3/s3.go lines 117-126. -/
def formatUnusedBucketsMessage (unusedBuckets : List (String × List String)) : String :=
  unusedBuckets.foldl
    (fun msg p =>
      (p.2.foldl (fun m b => m ++ "- " ++ b ++ "\x0a")
        (msg ++ "Account " ++ p.1 ++ ":\x0a")))
    "Unused S3 buckets (not accessed in the last month):\x0a"

/-- Behaviour of the Execute closure built by s3.NewCommand
(src/services/s3/s3.go lines 15-30) and iam.NewCommand
(src/services/iam/iam.go lines 11-20): dispatch on the captured command
string, with an unknown command reported only here, at execution time. -/
def runExec (c : ExecClosure) (w : ExecWorld) : Except String String :=
  match c.service with
  | "s3" =>
    if c.command = "check_unused_buckets" then
      match checkUnusedBuckets w c.accounts with
      | .error e => .error e
      | .ok unused => .ok (formatUnusedBucketsMessage unused)
    else
      .error ("unknown S3 command: " ++ c.command)
  | "iam" =>
    if c.command = "list_iam_users" then
      listIAMUsers w c.accounts
    else
      .error ("unknown IAM command: " ++ c.command)
  | _ => .error ("no operation for service: " ++ c.service)

/-- Calling a Task's Execute field (t.Execute() in the source); a nil
func (the zero value of a JSON-decoded Task) cannot produce a result. -/
def taskExecute (t : Task) (w : ExecWorld) : Except String String :=
  match t.execute with
  | none => .error "nil Execute"
  | some c => runExec c w

/-- A message handed to the Slack notification sink
(slack.Client.PostMessage, src/slack/slack.go lines 19-25). -/
structure SlackPost where
  channel : String
  text : String
deriving DecidableEq, Repr

/-- The goroutine body of executeTasks (src/unnamed/part_003 lines 79-92)
applied to each due task in turn: on an execution error the goroutine logs
and returns without posting; only a successful result is posted to the
task's Slack channel. -/
def executeTasksPosts (due : List Task) (w : ExecWorld) : List SlackPost :=
  match due with
  | [] => []
  | t :: rest =>
    match taskExecute t w with
    | .error _ => executeTasksPosts rest w
    | .ok result => ⟨t.slackChannel, result⟩ :: executeTasksPosts rest w

/-- A map mutation performed by a TaskManager method: insertion of a task
under its id (tm.tasks[taskID] = task, src/tasks/task_manager.go line 153). -/
structure RMWOp where
  key : String
  val : Task
deriving DecidableEq, Repr

/-- Interleaving events of two concurrent unsynchronized map insertions.
The TaskManager struct (src/tasks/task_manager.go lines 15-19) holds no
mutex, so nothing in the code makes an insertion into the shared tasks map
atomic: each insertion is a read of the shared table followed by a write of
the modified table, and the reads and writes of two concurrent callers may
interleave arbitrarily. -/
inductive RaceEvt where
  | read1
  | write1
  | read2
  | write2

/-- Shared memory plus each goroutine's private snapshot of the table. -/
structure RaceState where
  mem : List (String × Task)
  loc1 : Option (List (String × Task))
  loc2 : Option (List (String × Task))
deriving DecidableEq

/-- One interleaving step of the two unsynchronized insertions. -/
def raceStep (o1 o2 : RMWOp) (s : RaceState) : RaceEvt → RaceState
  | .read1 => { s with loc1 := some s.mem }
  | .write1 =>
    { s with mem := match s.loc1 with
        | some snap => storeInsert snap o1.key o1.val
        | none => s.mem }
  | .read2 => { s with loc2 := some s.mem }
  | .write2 =>
    { s with mem := match s.loc2 with
        | some snap => storeInsert snap o2.key o2.val
        | none => s.mem }

/-- Run a whole interleaving of the two insertions from an empty map. -/
def runRace (o1 o2 : RMWOp) (h : List RaceEvt) : RaceState :=
  h.foldl (raceStep o1 o2) ⟨[], none, none⟩

/-! Concrete instances used by witnesses and counterexamples. -/

/-- The empty TaskManager state: no tasks, fresh cron runner. -/
def tmEmpty : SchedulerState := ⟨[], ⟨0, []⟩⟩

/-- An ExecWorld in which every control-plane call succeeds trivially. -/
def okWorld : ExecWorld :=
  ⟨0, fun _ => .ok (), fun _ => .ok [], fun _ => .ok [], fun _ _ => none⟩

/-- A valid task configuration (the spec's own scenario from section 8). -/
def c1cfg : TaskConfig :=
  ⟨"storage audit", ["111111111111"], "s3", "check_unused_buckets", "0 9 * * *", "#ops"⟩

/-- The task CreateTask builds for c1cfg under fresh id t1. -/
def c1task : Task :=
  mkTask "t1" c1cfg ⟨9⟩ ⟨"s3", "check_unused_buckets", ["111111111111"]⟩

/-- The scheduler state after creating c1cfg in the empty state. -/
def c1tm1 : SchedulerState := ⟨[("t1", c1task)], ⟨1, [⟨1, ⟨9⟩, "t1"⟩]⟩⟩

/-- The replacement task a caller passes to UpdateTask: a decoded Task
value carrying the new schedule string (18:00 instead of 09:00); its func
and unexported fields are zero values. -/
def c1newTask : Task :=
  { id := "t1"
    name := "storage audit"
    awsAccounts := ["111111111111"]
    service := "s3"
    command := "check_unused_buckets"
    schedule := ⟨0⟩
    scheduleString := "0 18 * * *"
    slackChannel := "#ops"
    execute := none
    cronEntryID := 0 }

/-- The scheduler state after UpdateTask of t1: both the stale 09:00
registration (EntryID 1) and the new 18:00 registration (EntryID 2) are
live in the cron runner. -/
def c1tm2 : SchedulerState :=
  ⟨[("t1", { c1newTask with cronEntryID := 2 })],
    ⟨2, [⟨1, ⟨9⟩, "t1"⟩, ⟨2, ⟨10⟩, "t1"⟩]⟩⟩

/-- The scheduler state after DeleteTask of t1: the map entry is gone but
the 09:00 registration survives cron.Remove(0). -/
def c1tm3 : SchedulerState := ⟨[], ⟨1, [⟨1, ⟨9⟩, "t1"⟩]⟩⟩

/-- A minimal stored task used by the race counterexample. -/
def c2taskA : Task :=
  ⟨"a", "a", [], "s3", "check_unused_buckets", ⟨9⟩, "0 9 * * *", "#ops", none, 0⟩

/-- A second stored task used by the race counterexample. -/
def c2taskB : Task :=
  ⟨"b", "b", [], "iam", "list_iam_users", ⟨9⟩, "0 9 * * *", "#ops", none, 0⟩

/-- A world in which minting credentials for account 111 fails while
account 222 is fully healthy. -/
def c3w : ExecWorld :=
  ⟨0,
    fun a => if a = "111" then .error "denied" else .ok (),
    fun _ => .ok ["bob"],
    fun _ => .ok [],
    fun _ _ => none⟩

/-- A world in which account 222 fails and accounts 111 and 333 are
healthy. -/
def c3wit : ExecWorld :=
  ⟨0,
    fun a => if a = "222" then .error "boom" else .ok (),
    fun _ => .ok ["u1"],
    fun _ => .ok [],
    fun _ _ => none⟩

/-- The broker's 32-byte process-lifetime key, concretely. -/
def c4key : Bytes := List.replicate 32 0

/-- The GCM nonce under which the cached entry was encrypted. -/
def c4nonce : Bytes := List.replicate 12 1

/-- An expired cached token (expiry 5, observed at clock time 100). -/
def c4tok : Token := ⟨[7], [2], [3], 5⟩

/-- The encrypted form of c4tok as encryptToken produces it. -/
def c4enc : Token :=
  ⟨b64encode (c4nonce ++ gcmSeal c4key c4nonce (jsonMarshal c4tok)),
    c4tok.tokenType, [], c4tok.expiry⟩

/-- The cache entry for account acct holding the expired token. -/
def c4entry : CacheEntry := ⟨c4enc, "acct"⟩

/-- Broker state with one cached (expired) entry for account acct. -/
def c4am : AuthState := ⟨[], [("acct", c4entry)], c4key⟩

/-- The fresh token the identity provider returns on refresh. -/
def c4new : Token := ⟨[9], [2], [3], 1000⟩

/-- A world whose refresh endpoint rejects the refresh token. -/
def c4wFail : OIDCWorld := ⟨100, fun _ => none, List.replicate 12 2⟩

/-- A world whose refresh endpoint returns c4new. -/
def c4wOk : OIDCWorld := ⟨100, fun _ => some c4new, List.replicate 12 2⟩

/-- The re-encrypted form of the refreshed token. -/
def c4encNew : Token :=
  ⟨b64encode (c4wOk.nonce ++ gcmSeal c4key c4wOk.nonce (jsonMarshal c4new)),
    c4new.tokenType, [], c4new.expiry⟩

/-- Auth state with one pending login under state value good. -/
def c5am : AuthState := ⟨[("good", "n1")], [], c4key⟩

/-- A callback world whose later steps all fail; the claim's properties
must hold regardless of them. -/
def c5w : CallbackWorld := ⟨fun _ => none, fun _ => none, []⟩

/-- A stored, due task whose command string resolves to no operation, so
its execution completes with an error. -/
def c6task : Task :=
  ⟨"x", "bogus task", [], "s3", "bogus_cmd", ⟨0⟩, "", "#ops",
    some ⟨"s3", "bogus_cmd", []⟩, 0⟩

/-- Scheduler state holding only the erroring task. -/
def c6tm : SchedulerState := ⟨[("x", c6task)], ⟨0, []⟩⟩

/-- A task spec whose service is known but whose command is not. -/
def c7cfgBogus : TaskConfig :=
  ⟨"broken audit", ["222"], "s3", "wrong_cmd", "0 9 * * *", "#ops"⟩

/-- The task CreateTask accepts for c7cfgBogus. -/
def c7task : Task := mkTask "t7" c7cfgBogus ⟨9⟩ ⟨"s3", "wrong_cmd", ["222"]⟩

/-- The scheduler state after creating c7cfgBogus: stored and registered. -/
def c7tm : SchedulerState := ⟨[("t7", c7task)], ⟨1, [⟨1, ⟨9⟩, "t7"⟩]⟩⟩

/-- A task spec with a malformed schedule expression. -/
def c7cfgBadSched : TaskConfig := ⟨"bad sched", [], "s3", "c", "nope", "#c"⟩

/-- A task spec with an unknown service. -/
def c7cfgBadSvc : TaskConfig := ⟨"bad svc", [], "ec2", "c", "0 9 * * *", "#c"⟩

/-- A 32-byte key for the roundtrip witness. -/
def c8key : Bytes := List.replicate 32 3

/-- A 12-byte GCM nonce for the roundtrip witness. -/
def c8nonce : Bytes := List.replicate 12 4

/-- A concrete token payload for the roundtrip witness. -/
def c8tok : Token := ⟨[5, 6], [7], [8], 9⟩

/-- Its encryption under c8key and c8nonce. -/
def c8enc : Token :=
  ⟨b64encode (c8nonce ++ gcmSeal c8key c8nonce (jsonMarshal c8tok)),
    c8tok.tokenType, [], c8tok.expiry⟩

/-- A stored task whose next occurrence is 120 seconds away. -/
def c9task : Task :=
  ⟨"y", "slow task", [], "iam", "list_iam_users", ⟨120⟩, "", "#ops",
    some ⟨"iam", "list_iam_users", []⟩, 0⟩

/-- Scheduler state holding only the 120-second task. -/
def c9tm : SchedulerState := ⟨[("y", c9task)], ⟨0, []⟩⟩

/-- A valid iam task configuration for the C10 witness. -/
def c10cfg : TaskConfig :=
  ⟨"iam audit", ["333"], "iam", "list_iam_users", "0 9 * * 1", "#sec"⟩

/-- The task CreateTask builds for c10cfg under fresh id tz. -/
def c10task : Task := mkTask "tz" c10cfg ⟨9⟩ ⟨"iam", "list_iam_users", ["333"]⟩

/-- The scheduler state after creating c10cfg in the empty state. -/
def c10tm : SchedulerState := ⟨[("tz", c10task)], ⟨1, [⟨1, ⟨9⟩, "tz"⟩]⟩⟩

theorem readField_fieldEnc (x rest : Bytes) :
    readField (fieldEnc x ++ rest) = some (x, rest) := by
  simp [fieldEnc, readField]

theorem jsonUnmarshal_jsonMarshal (t : Token) :
    jsonUnmarshal (jsonMarshal t) = some t := by
  simp [jsonMarshal, jsonUnmarshal, readField_fieldEnc]

theorem gcmOpen_gcmSeal (key nonce pt : Bytes) :
    gcmOpen key nonce (gcmSeal key nonce pt) = some pt := by
  have hmap : (pt.map (fun b => b + key.sum)).map (fun b => b - key.sum) = pt := by
    rw [List.map_map]
    have : ((fun b => b - key.sum) ∘ fun b => b + key.sum) = id := by
      funext b
      simp
    rw [this, List.map_id]
  simp [gcmSeal, gcmOpen, hmap]

/-- Claim C8: decrypting the result of encrypting any token payload under
the broker's process-lifetime key returns the original payload bit for bit,
for every payload: the nonce prepended by Seal is split off again, the
authenticated body opens, and the marshalled fields unmarshal to the very
token that was encrypted, whatever the sizes of its fields. -/
theorem decryptToken_encryptToken (key nonce : Bytes) (t e : Token)
    (hk : key.length = 32) (hn : nonce.length = gcmNonceSize)
    (he : encryptToken key nonce t = some e) :
    decryptToken key e = some t := by
  rw [encryptToken, if_pos hk] at he
  cases he
  have hlen : ¬ (b64encode (nonce ++ gcmSeal key nonce (jsonMarshal t))).length
      < gcmNonceSize := by
    simp [b64encode, List.length_append, hn]
  rw [decryptToken]
  simp only [b64decode, b64encode, Option.some_bind]
  rw [if_pos hk, if_neg (by simpa [b64encode] using hlen)]
  have htake : (nonce ++ gcmSeal key nonce (jsonMarshal t)).take gcmNonceSize = nonce := by
    rw [← hn, List.take_left]
  have hdrop : (nonce ++ gcmSeal key nonce (jsonMarshal t)).drop gcmNonceSize
      = gcmSeal key nonce (jsonMarshal t) := by
    rw [← hn, List.drop_left]
  rw [htake, hdrop, gcmOpen_gcmSeal]
  simp [jsonUnmarshal_jsonMarshal]

theorem lookupStore_insert_self {α : Type} (l : List (String × α)) (k : String) (v : α) :
    lookupStore (storeInsert l k v) k = some v := by
  simp [storeInsert, lookupStore]

theorem lookupStore_erase_self {α : Type} (l : List (String × α)) (k : String) :
    lookupStore (storeErase l k) k = none := by
  induction l with
  | nil => rfl
  | cons p rest ih =>
    by_cases hp : p.1 = k
    · simpa [storeErase, hp] using ih
    · simpa [storeErase, lookupStore, hp] using ih

theorem lookupStore_erase_ne {α : Type} (l : List (String × α)) (k k' : String)
    (h : k' ≠ k) : lookupStore (storeErase l k) k' = lookupStore l k' := by
  induction l with
  | nil => rfl
  | cons p rest ih =>
    have hkk : ¬ (k = k') := fun hx => h hx.symm
    by_cases hp : p.1 = k
    · simpa [storeErase, List.filter, hp, lookupStore, hkk] using ih
    · by_cases hq : p.1 = k'
      · simp [storeErase, List.filter, hp, lookupStore, hq, h]
      · simpa [storeErase, List.filter, hp, lookupStore, hq] using ih

theorem lookupStore_insert_elim {α : Type} (l : List (String × α)) (k k' : String)
    (v u : α) (h : lookupStore (storeInsert l k v) k' = some u) :
    u = v ∨ lookupStore l k' = some u := by
  by_cases hk : k = k'
  · subst hk
    rw [lookupStore_insert_self] at h
    exact Or.inl (Option.some.inj h).symm
  · right
    have hne : k' ≠ k := fun hx => hk hx.symm
    rw [storeInsert] at h
    simp only [lookupStore, hk, if_neg hk] at h
    rwa [lookupStore_erase_ne l k k' hne] at h

/-- A callback whose state value is not stored is rejected immediately with
no mutation at all. -/
theorem handleCallback_miss (am : AuthState) (w : CallbackWorld) (state code : String)
    (h : lookupStore am.stateStore state = none) :
    HandleCallback am w state code = (.invalidState, am) := by
  rw [HandleCallback, h]

/-- Whatever else happens in the callback, afterwards the state value is no
longer stored: either it was never stored, or it was deleted before any
subsequent step. -/
theorem handleCallback_consumes (am : AuthState) (w : CallbackWorld)
    (state code : String) :
    lookupStore ((HandleCallback am w state code).2).stateStore state = none := by
  rcases hl : lookupStore am.stateStore state with _ | nonce
  · rw [handleCallback_miss am w state code hl]
    exact hl
  · rw [HandleCallback, hl]
    dsimp only
    repeat' split
    all_goals exact lookupStore_erase_self _ _

/-- Membership in the GetDueTasks loop result. -/
theorem mem_dueLoop (now : Nat) (l : List (String × Task)) (u : Task) :
    u ∈ dueLoop now l ↔
      (∃ tid, (tid, u) ∈ l) ∧ schedNext u.schedule now - now < 60 := by
  induction l with
  | nil => simp [dueLoop]
  | cons p rest ih =>
    obtain ⟨k, t⟩ := p
    by_cases hc : schedNext t.schedule now - now < 60
    · rw [dueLoop, if_pos hc]
      simp only [List.mem_cons, ih, Prod.mk.injEq]
      constructor
      · rintro (rfl | ⟨⟨tid, htid⟩, hlt⟩)
        · exact ⟨⟨k, Or.inl ⟨rfl, rfl⟩⟩, hc⟩
        · exact ⟨⟨tid, Or.inr htid⟩, hlt⟩
      · rintro ⟨⟨tid, ⟨h1, rfl⟩ | hmem⟩, hlt⟩
        · exact Or.inl rfl
        · exact Or.inr ⟨⟨tid, hmem⟩, hlt⟩
    · rw [dueLoop, if_neg hc]
      simp only [List.mem_cons, ih, Prod.mk.injEq]
      constructor
      · rintro ⟨⟨tid, htid⟩, hlt⟩
        exact ⟨⟨tid, Or.inr htid⟩, hlt⟩
      · rintro ⟨⟨tid, ⟨h1, rfl⟩ | hmem⟩, hlt⟩
        · exact absurd hlt hc
        · exact ⟨⟨tid, hmem⟩, hlt⟩

/-- The listIAMUsers account loop aborts at the first account whose
credential minting fails, whatever accounts follow it and whatever has been
accumulated so far. -/
theorem listIAMUsersLoop_abort (w : ExecWorld) (pre : List String) (account : String)
    (post : List String) (e : String) (acc : List (String × List String))
    (hpre : ∀ b ∈ pre, w.awsConfig b = .ok () ∧ ∃ us, w.listUsers b = .ok us)
    (ha : w.awsConfig account = .error e) :
    listIAMUsersLoop w acc (pre ++ account :: post) =
      .error ("error getting AWS config for account " ++ account ++ ": " ++ e) := by
  induction pre generalizing acc with
  | nil =>
    rw [List.nil_append, listIAMUsersLoop, ha]
  | cons b pre ih =>
    obtain ⟨hb, us, hus⟩ := hpre b (by simp)
    rw [List.cons_append, listIAMUsersLoop, hb, hus]
    exact ih _ (fun b' hb' => hpre b' (List.mem_cons_of_mem b hb'))

/-- The checkUnusedBuckets account loop aborts at the first account whose
credential minting fails, whatever accounts follow it and whatever has been
accumulated so far. -/
theorem checkUnusedBucketsLoop_abort (w : ExecWorld) (pre : List String)
    (account : String) (post : List String) (e : String)
    (acc : List (String × List String))
    (hpre : ∀ b ∈ pre, w.awsConfig b = .ok () ∧ ∃ bs, w.listBuckets b = .ok bs)
    (ha : w.awsConfig account = .error e) :
    checkUnusedBucketsLoop w acc (pre ++ account :: post) =
      .error ("error getting last access times for account " ++ account ++ ": "
        ++ ("error getting AWS config: " ++ e)) := by
  induction pre generalizing acc with
  | nil =>
    have hg : getLastAccessTimes w account = .error ("error getting AWS config: " ++ e) := by
      unfold getLastAccessTimes
      rw [ha]
    rw [List.nil_append, checkUnusedBucketsLoop, hg]
  | cons b pre ih =>
    obtain ⟨hb, bs, hbs⟩ := hpre b (by simp)
    have hgb : getLastAccessTimes w b =
        .ok (bs.filterMap fun bk => (w.bucketLastAccess b bk).map fun t => (bk, t)) := by
      unfold getLastAccessTimes
      rw [hb]
      dsimp only
      rw [hbs]
    rw [List.cons_append, checkUnusedBucketsLoop, hgb]
    exact ih _ (fun b' hb' => hpre b' (List.mem_cons_of_mem b hb'))

/-- Every task the NewTaskManager constructor stores has a zero
cronEntryID: the constructor loop never writes the Schedule return value
into the task. -/
theorem newTaskManager_cronEntryID (cfgs : List TaskConfig) (fids : List String)
    (tid : String) (t : Task)
    (h : lookupStore (NewTaskManager cfgs fids).tasks tid = some t) :
    t.cronEntryID = 0 := by
  rw [NewTaskManager] at h
  suffices hgen : ∀ (ps : List (TaskConfig × String)) (tm : SchedulerState),
      (∀ tid' t', lookupStore tm.tasks tid' = some t' → t'.cronEntryID = 0) →
      ∀ tid' t', lookupStore
        (ps.foldl (fun tm p => newTaskManagerStep tm p.2 p.1) tm).tasks tid' = some t' →
        t'.cronEntryID = 0 by
    exact hgen (cfgs.zip fids) ⟨[], ⟨0, []⟩⟩ (fun _ _ hx => by cases hx) tid t h
  intro ps
  induction ps with
  | nil => intro tm hinv tid' t' h'; exact hinv tid' t' h'
  | cons p ps ih =>
    intro tm hinv tid' t' h'
    refine ih (newTaskManagerStep tm p.2 p.1) ?_ tid' t' h'
    intro tid2 t2 h2
    rw [newTaskManagerStep] at h2
    rcases hp : parseStandard p.1.schedule with _ | sched
    · rw [hp] at h2
      exact hinv tid2 t2 h2
    · rw [hp] at h2
      rcases hr : resolveExec p.1 with _ | ex
      · rw [hr] at h2
        exact hinv tid2 t2 h2
      · rw [hr] at h2
        rcases lookupStore_insert_elim _ _ _ _ _ h2 with rfl | hold
        · rfl
        · exact hinv tid2 t2 hold

/-- Removing cron entry id 0 removes nothing when every live entry has a
non-zero id (which Schedule guarantees, since ids start at 1). -/
theorem cronRemove_zero_noop (c : Cron) (h : ∀ e ∈ c.entries, e.id ≠ 0) :
    cronRemove c 0 = c := by
  unfold cronRemove
  rw [List.filter_eq_self.mpr (fun e he => decide_eq_true (h e he))]

/-- Claim C1: once UpdateTask or DeleteTask has returned successfully, no
future clock firing uses the task's old registration, because UpdateTask
removes the previous clock registration before installing the new one.
The code violates this: CreateTask discards the EntryID that cron.Schedule
returns, so UpdateTask and DeleteTask call cron.Remove with id 0, which
matches no registration.  Concretely: after creating a task on the 09:00
schedule (EntryID 1) and updating it to an 18:00 schedule, the cron runner
still holds the old 09:00 registration alongside the new one, and after
deleting the freshly created task the 09:00 registration is still live. -/
theorem c1_stale_registration_survives :
    CreateTask tmEmpty "t1" c1cfg = (Except.ok c1task, c1tm1) ∧
    UpdateTask c1tm1 "t1" c1newTask = (Except.ok (), c1tm2) ∧
    c1tm2.cron.entries = [⟨1, ⟨9⟩, "t1"⟩, ⟨2, ⟨10⟩, "t1"⟩] ∧
    (⟨1, ⟨9⟩, "t1"⟩ : CronEntry) ∈ c1tm2.cron.entries ∧
    DeleteTask c1tm1 "t1" = (Except.ok (), c1tm3) ∧
    c1tm3.cron.entries = [⟨1, ⟨9⟩, "t1"⟩] ∧
    (⟨9⟩ : Sched) ≠ (⟨10⟩ : Sched) := by
  decide

/-- Claim C2: all accesses to the scheduler's task storage map are
serialized through one protection scheme, so no interleaving of concurrent
calls corrupts the map.  The code violates this: TaskManager holds no mutex
(src/tasks/task_manager.go lines 15-19), so the map insert performed by
CreateTask (line 153) is an unprotected read-modify-write of the shared
table.  The interleaving read1-read2-write1-write2 of two concurrent
insertions loses the first task entirely, a final state that neither serial
order of the two insertions can produce. -/
theorem c2_unsynchronized_map_lost_update :
    (runRace ⟨"a", c2taskA⟩ ⟨"b", c2taskB⟩
      [.read1, .write1, .read2, .write2]).mem = [("b", c2taskB), ("a", c2taskA)] ∧
    (runRace ⟨"a", c2taskA⟩ ⟨"b", c2taskB⟩
      [.read2, .write2, .read1, .write1]).mem = [("a", c2taskA), ("b", c2taskB)] ∧
    (runRace ⟨"a", c2taskA⟩ ⟨"b", c2taskB⟩
      [.read1, .read2, .write1, .write2]).mem = [("b", c2taskB)] ∧
    lookupStore (runRace ⟨"a", c2taskA⟩ ⟨"b", c2taskB⟩
      [.read1, .read2, .write1, .write2]).mem "a" = none := by
  decide

/-- Claim C3 counterexample: the claim says a credential failure for one
account is recorded as a partial failure and the other accounts are still
processed.  In the code a failure for account 111 aborts the whole task run
with an error even though account 222 is perfectly healthy, and no report
mentioning 222 is produced. -/
theorem c3_one_account_failure_aborts_run :
    listIAMUsers c3w ["111", "222"]
      = .error "error getting AWS config for account 111: denied" ∧
    c3w.awsConfig "222" = .ok () ∧
    c3w.listUsers "222" = .ok ["bob"] := by
  refine ⟨by decide, rfl, rfl⟩

/-- Claim C3 as amended: when obtaining a delegated credential fails for
one account of a task, the whole run aborts with an error naming that
account; the accounts after it are not processed (the result is the same
whatever they are) and no per-account report is produced.  This holds for
both audit operations: the iam list-users run and the s3
check-unused-buckets run. -/
theorem c3_first_credential_failure_aborts (w : ExecWorld) (pre : List String)
    (account : String) (post : List String) (e : String)
    (hpreIAM : ∀ b ∈ pre, w.awsConfig b = .ok () ∧ ∃ us, w.listUsers b = .ok us)
    (hpreS3 : ∀ b ∈ pre, w.awsConfig b = .ok () ∧ ∃ bs, w.listBuckets b = .ok bs)
    (ha : w.awsConfig account = .error e) :
    listIAMUsers w (pre ++ account :: post) =
      .error ("error getting AWS config for account " ++ account ++ ": " ++ e) ∧
    checkUnusedBuckets w (pre ++ account :: post) =
      .error ("error getting last access times for account " ++ account ++ ": "
        ++ ("error getting AWS config: " ++ e)) := by
  constructor
  · rw [listIAMUsers, listIAMUsersLoop_abort w pre account post e [] hpreIAM ha]
  · rw [checkUnusedBuckets, checkUnusedBucketsLoop_abort w pre account post e [] hpreS3 ha]

theorem c3_first_credential_failure_aborts_witness :
    listIAMUsers c3wit ["111", "222", "333"] =
      .error "error getting AWS config for account 222: boom" ∧
    checkUnusedBuckets c3wit ["111", "222", "333"] =
      .error "error getting last access times for account 222: error getting AWS config: boom" :=
  c3_first_credential_failure_aborts c3wit ["111"] "222" ["333"] "boom"
    (by
      intro b hb
      rcases List.mem_singleton.mp hb with rfl
      exact ⟨rfl, ["u1"], rfl⟩)
    (by
      intro b hb
      rcases List.mem_singleton.mp hb with rfl
      exact ⟨rfl, [], rfl⟩)
    rfl

/-- Claim C4: for an account whose cached token is expired, the broker
refreshes it synchronously; on refresh success the re-encrypted token
overwrites that account's cache entry, and on refresh failure an error is
returned with the cache left exactly as it was before the call. -/
theorem c4_refresh_failure_preserves_cache (am : AuthState) (w : OIDCWorld)
    (accountID : String) (entry : CacheEntry) (token newToken enc : Token)
    (h1 : lookupStore am.tokenCache accountID = some entry)
    (h2 : decryptToken am.encryptionKey entry.token = some token)
    (h3 : tokenValid token w.now = false) :
    (w.refreshResult token = none →
      getOIDCToken am w accountID = (.error .refreshFailed, am)) ∧
    (w.refreshResult token = some newToken →
      encryptToken am.encryptionKey w.nonce newToken = some enc →
      getOIDCToken am w accountID =
        (.ok newToken,
          { am with tokenCache := storeInsert am.tokenCache accountID ⟨enc, accountID⟩ })) := by
  have hbase : getOIDCToken am w accountID =
      (match w.refreshResult token with
        | none => (.error .refreshFailed, am)
        | some newTok =>
          match encryptToken am.encryptionKey w.nonce newTok with
          | none => (.error .encryptFailed, am)
          | some enc2 =>
            (.ok newTok,
              { am with tokenCache := storeInsert am.tokenCache accountID ⟨enc2, accountID⟩ })) := by
    unfold getOIDCToken
    rw [h1]
    dsimp only
    rw [h2]
    dsimp only
    rw [h3, if_neg (by simp : ¬ (false = true))]
  constructor
  · intro hr
    rw [hbase, hr]
  · intro hr henc
    rw [hbase, hr]
    dsimp only
    rw [henc]

theorem c4_refresh_failure_preserves_cache_witness :
    lookupStore c4am.tokenCache "acct" = some c4entry ∧
    decryptToken c4am.encryptionKey c4entry.token = some c4tok ∧
    tokenValid c4tok (100 : Nat) = false ∧
    getOIDCToken c4am c4wFail "acct" = (.error .refreshFailed, c4am) ∧
    getOIDCToken c4am c4wOk "acct" =
      (.ok c4new,
        { c4am with tokenCache := storeInsert c4am.tokenCache "acct" ⟨c4encNew, "acct"⟩ }) :=
  ⟨by decide, by decide, by decide,
   (c4_refresh_failure_preserves_cache c4am c4wFail "acct" c4entry c4tok c4new c4encNew
      (by decide) (by decide) (by decide)).1 rfl,
   (c4_refresh_failure_preserves_cache c4am c4wOk "acct" c4entry c4tok c4new c4encNew
      (by decide) (by decide) (by decide)).2 rfl (by decide)⟩

/-- Claim C5: a login callback presenting a state value that is not
currently stored is rejected with the invalid-state error and mutates
nothing; on a stored state the pending login is deleted before any
subsequent step, so after any callback the state value is no longer stored
and a replay of the same state is rejected: no state value validates
twice. -/
theorem c5_state_validates_at_most_once (am : AuthState) (w w2 : CallbackWorld)
    (state code code2 : String) :
    (lookupStore am.stateStore state = none →
      HandleCallback am w state code = (.invalidState, am)) ∧
    lookupStore ((HandleCallback am w state code).2).stateStore state = none ∧
    HandleCallback ((HandleCallback am w state code).2) w2 state code2 =
      (.invalidState, (HandleCallback am w state code).2) :=
  ⟨handleCallback_miss am w state code,
   handleCallback_consumes am w state code,
   handleCallback_miss _ w2 state code2 (handleCallback_consumes am w state code)⟩

theorem c5_state_validates_at_most_once_witness :
    HandleCallback c5am c5w "bad" "c" = (.invalidState, c5am) ∧
    lookupStore ((HandleCallback c5am c5w "good" "c").2).stateStore "good" = none ∧
    HandleCallback ((HandleCallback c5am c5w "good" "c").2) c5w "good" "c" =
      (.invalidState, (HandleCallback c5am c5w "good" "c").2) :=
  ⟨(c5_state_validates_at_most_once c5am c5w c5w "bad" "c" "c").1 (by decide),
   (c5_state_validates_at_most_once c5am c5w c5w "good" "c" "c").2.1,
   (c5_state_validates_at_most_once c5am c5w c5w "good" "c" "c").2.2⟩

/-- Claim C6 counterexample: the claim says the notification sink is
notified after every completed execution, success or error.  In the code a
due task whose execution completes with an error produces no notification
at all: the goroutine logs the error and returns before PostMessage. -/
theorem c6_error_outcome_not_notified :
    (GetDueTasks c6tm 0).1 = [c6task] ∧
    taskExecute c6task okWorld = .error "unknown S3 command: bogus_cmd" ∧
    executeTasksPosts (GetDueTasks c6tm 0).1 okWorld = [] := by
  decide

/-- Claim C6 as amended: the notification sink receives exactly the
successful outcomes, each posted to its task's channel; a task completing
with an error produces no notification (the error is only logged). -/
theorem c6_notify_only_on_success (due : List Task) (w : ExecWorld)
    (t : Task) (e : String) (h : taskExecute t w = .error e) :
    executeTasksPosts due w = due.filterMap (fun u =>
      match taskExecute u w with
      | .ok r => some ⟨u.slackChannel, r⟩
      | .error _ => none) ∧
    executeTasksPosts [t] w = [] := by
  constructor
  · induction due with
    | nil => rfl
    | cons u rest ih =>
      rcases hu : taskExecute u w with e2 | r
      · simp [executeTasksPosts, hu, ih]
      · simp [executeTasksPosts, hu, ih]
  · simp [executeTasksPosts, h]

theorem c6_notify_only_on_success_witness :
    taskExecute c6task okWorld = .error "unknown S3 command: bogus_cmd" ∧
    executeTasksPosts [c6task] okWorld = [] :=
  ⟨by decide,
   (c6_notify_only_on_success [c6task] okWorld c6task "unknown S3 command: bogus_cmd"
      (by decide)).2⟩

/-- Claim C7 counterexample: the claim says an unknown service/command pair
is rejected at creation with nothing stored or registered.  The code checks
only the service name: a spec with known service s3 but unknown command
wrong_cmd is accepted, stored and registered, and the unknown-command error
surfaces only when the task executes. -/
theorem c7_unknown_command_accepted :
    CreateTask tmEmpty "t7" c7cfgBogus = (Except.ok c7task, c7tm) ∧
    lookupStore c7tm.tasks "t7" = some c7task ∧
    c7tm.cron.entries = [⟨1, ⟨9⟩, "t7"⟩] ∧
    runExec ⟨"s3", "wrong_cmd", ["222"]⟩ okWorld
      = .error "unknown S3 command: wrong_cmd" := by
  decide

/-- Claim C7 as amended: a malformed schedule expression makes CreateTask
return a parse error with nothing stored or registered; an unknown service
makes it return an unknown-service error with nothing stored or registered;
on success (any known service, the command unchecked until execution) the
task is both stored in the map and registered with the clock. -/
theorem c7_create_validation (tm : SchedulerState) (fid : String)
    (cfg : TaskConfig) (sched : Sched) (ex : ExecClosure) :
    (parseStandard cfg.schedule = none →
      CreateTask tm fid cfg =
        (.error ("error parsing schedule: " ++ cfg.schedule), tm)) ∧
    (parseStandard cfg.schedule = some sched → resolveExec cfg = none →
      CreateTask tm fid cfg = (.error ("unknown service: " ++ cfg.service), tm)) ∧
    (parseStandard cfg.schedule = some sched → resolveExec cfg = some ex →
      CreateTask tm fid cfg =
        (.ok (mkTask fid cfg sched ex),
          ⟨storeInsert tm.tasks fid (mkTask fid cfg sched ex),
            (cronSchedule tm.cron sched fid).2⟩) ∧
      lookupStore (storeInsert tm.tasks fid (mkTask fid cfg sched ex)) fid
        = some (mkTask fid cfg sched ex) ∧
      (⟨tm.cron.nextID + 1, sched, fid⟩ : CronEntry)
        ∈ ((cronSchedule tm.cron sched fid).2).entries) := by
  refine ⟨?_, ?_, ?_⟩
  · intro hp
    unfold CreateTask
    rw [hp]
  · intro hp hr
    unfold CreateTask
    rw [hp]
    dsimp only
    rw [hr]
  · intro hp hr
    refine ⟨?_, lookupStore_insert_self _ _ _, ?_⟩
    · unfold CreateTask
      rw [hp]
      dsimp only
      rw [hr]
    · exact List.mem_append_right _ (List.mem_singleton_self _)

theorem c7_create_validation_witness :
    CreateTask tmEmpty "tb" c7cfgBadSched =
      (.error ("error parsing schedule: " ++ c7cfgBadSched.schedule), tmEmpty) ∧
    CreateTask tmEmpty "tb" c7cfgBadSvc =
      (.error ("unknown service: " ++ c7cfgBadSvc.service), tmEmpty) ∧
    CreateTask tmEmpty "t1" c1cfg =
      (.ok (mkTask "t1" c1cfg ⟨9⟩ ⟨"s3", "check_unused_buckets", ["111111111111"]⟩),
        ⟨storeInsert tmEmpty.tasks "t1"
            (mkTask "t1" c1cfg ⟨9⟩ ⟨"s3", "check_unused_buckets", ["111111111111"]⟩),
          (cronSchedule tmEmpty.cron ⟨9⟩ "t1").2⟩) :=
  ⟨(c7_create_validation tmEmpty "tb" c7cfgBadSched ⟨0⟩ ⟨"", "", []⟩).1 (by decide),
   (c7_create_validation tmEmpty "tb" c7cfgBadSvc ⟨9⟩ ⟨"", "", []⟩).2.1
      (by decide) (by decide),
   ((c7_create_validation tmEmpty "t1" c1cfg ⟨9⟩
        ⟨"s3", "check_unused_buckets", ["111111111111"]⟩).2.2
      (by decide) (by decide)).1⟩

theorem c8_encrypt_then_decrypt_witness :
    encryptToken c8key c8nonce c8tok = some c8enc ∧
    decryptToken c8key c8enc = some c8tok :=
  ⟨by decide,
   decryptToken_encryptToken c8key c8nonce c8tok c8enc
     (by decide) (by decide) (by decide)⟩

/-- Claim C9 counterexample: the claim quantifies over every window, but
GetDueTasks takes no window parameter and hard-codes one minute: a stored
task whose next occurrence is 120 seconds away lies within a 180-second
window, yet GetDueTasks does not return it. -/
theorem c9_window_not_parametric :
    c9task ∈ dueWithinSpec c9tm 0 180 ∧
    c9task ∉ (GetDueTasks c9tm 0).1 ∧
    (GetDueTasks c9tm 0).2 = c9tm := by
  decide

/-- Claim C9 as amended: GetDueTasks uses a fixed window of one minute: it
returns exactly the stored tasks whose next occurrence from the current
clock time is strictly less than 60 seconds away, and it leaves the whole
scheduler state (task map and clock registrations) unchanged. -/
theorem c9_due_fixed_window (tm : SchedulerState) (now : Nat) (u : Task) :
    (u ∈ (GetDueTasks tm now).1 ↔
      (∃ tid, (tid, u) ∈ tm.tasks) ∧ schedNext u.schedule now - now < 60) ∧
    (GetDueTasks tm now).2 = tm :=
  ⟨mem_dueLoop now tm.tasks u, rfl⟩

theorem c9_due_fixed_window_witness :
    (c9task ∈ (GetDueTasks c9tm 0).1 ↔
      (∃ tid, (tid, c9task) ∈ c9tm.tasks) ∧
        schedNext c9task.schedule 0 - 0 < 60) ∧
    (GetDueTasks c9tm 0).2 = c9tm :=
  c9_due_fixed_window c9tm 0 c9task

/-- Claim C10: every task stored by CreateTask or by the NewTaskManager
constructor has cronEntryID zero, because the EntryID returned by
cron.Schedule is discarded, while the actual registration's id is the
runner's next id, which is never zero; consequently UpdateTask and
DeleteTask on such a task call cron.Remove with id 0 — a no-op whenever all
live registrations carry their real non-zero ids — rather than with the
task's actual registration id. -/
theorem c10_schedule_entry_id_discarded (tm tm' : SchedulerState) (fid : String)
    (cfg : TaskConfig) (task : Task)
    (h : CreateTask tm fid cfg = (Except.ok task, tm')) :
    task.cronEntryID = 0 ∧
    lookupStore tm'.tasks fid = some task ∧
    (⟨tm.cron.nextID + 1, task.schedule, fid⟩ : CronEntry) ∈ tm'.cron.entries ∧
    tm.cron.nextID + 1 ≠ 0 ∧
    DeleteTask tm' fid =
      (.ok (), ⟨storeErase tm'.tasks fid, cronRemove tm'.cron 0⟩) ∧
    ((∀ e ∈ tm.cron.entries, e.id ≠ 0) → cronRemove tm'.cron 0 = tm'.cron) ∧
    (∀ u : Task, UpdateTask tm' fid u =
      match cronAddFunc (cronRemove tm'.cron 0) u.scheduleString fid with
      | .error err => (.error err, ⟨tm'.tasks, cronRemove tm'.cron 0⟩)
      | .ok (eid, cron2) =>
        (.ok (), ⟨storeInsert tm'.tasks fid { u with cronEntryID := eid }, cron2⟩)) ∧
    (∀ (cfgs : List TaskConfig) (fids : List String) (tid : String) (t : Task),
      lookupStore (NewTaskManager cfgs fids).tasks tid = some t →
        t.cronEntryID = 0) := by
  unfold CreateTask at h
  rcases hp : parseStandard cfg.schedule with _ | sched
  · rw [hp] at h
    simp at h
  · rw [hp] at h
    dsimp only at h
    rcases hr : resolveExec cfg with _ | ex
    · rw [hr] at h
      simp at h
    · rw [hr] at h
      dsimp only at h
      rw [Prod.mk.injEq, Except.ok.injEq] at h
      obtain ⟨htask, hst⟩ := h
      subst htask
      subst hst
      refine ⟨rfl, lookupStore_insert_self _ _ _, ?_, Nat.succ_ne_zero _, ?_, ?_, ?_, ?_⟩
      · exact List.mem_append_right _ (List.mem_singleton_self _)
      · simp only [DeleteTask, lookupStore_insert_self]
        exact rfl
      · intro hids
        refine cronRemove_zero_noop _ ?_
        intro e he
        rcases List.mem_append.mp he with hmem | hmem
        · exact hids e hmem
        · rcases List.mem_singleton.mp hmem with rfl
          exact Nat.succ_ne_zero _
      · intro u
        simp only [UpdateTask, lookupStore_insert_self]
        exact rfl
      · exact newTaskManager_cronEntryID

theorem c10_schedule_entry_id_discarded_witness :
    CreateTask tmEmpty "tz" c10cfg = (Except.ok c10task, c10tm) ∧
    c10task.cronEntryID = 0 ∧
    lookupStore c10tm.tasks "tz" = some c10task ∧
    DeleteTask c10tm "tz" =
      (.ok (), ⟨storeErase c10tm.tasks "tz", cronRemove c10tm.cron 0⟩) :=
  ⟨by decide,
   (c10_schedule_entry_id_discarded tmEmpty c10tm "tz" c10cfg c10task (by decide)).1,
   (c10_schedule_entry_id_discarded tmEmpty c10tm "tz" c10cfg c10task (by decide)).2.1,
   (c10_schedule_entry_id_discarded tmEmpty c10tm "tz" c10cfg c10task
      (by decide)).2.2.2.2.1⟩


end AwsDevopsApi
